import Mathlib

set_option maxHeartbeats 1000000

namespace Onoff

-- Error code values from Zephyr's minimal libc errno.h.  EIOERR stands
-- for the C constant named E-I-O (value 5); EWOULDBLOCK is an alias for
-- EAGAIN in Zephyr.
def EINVAL : Int := 22
def EIOERR : Int := 5
def EAGAIN : Int := 11
def EWOULDBLOCK : Int := EAGAIN
def EBUSY : Int := 16
def EALREADY : Int := 120
def ENOTSUP : Int := 134
def ECANCELED : Int := 140

def UINT16_MAX : Nat := 65535

-- Client notification modes (enum onoff_client_flags): NO_WAIT = 0,
-- SIGNAL = 1 (CONFIG_POLL enabled), CALLBACK = 2; INTERNAL_BASE = 4 so
-- CLIENT_NOTIFY_MASK = 3.
def NOTIFY_NO_WAIT : Nat := 0
def NOTIFY_SIGNAL : Nat := 1
def NOTIFY_CALLBACK : Nat := 2
def CLIENT_NOTIFY_MASK : Nat := 3

-- The service `flags` field (u16_t) decomposed into its six used bits:
-- ONOFF_SERVICE_START_WAITS = BIT(0), STOP_WAITS = BIT(1),
-- RESET_WAITS = BIT(2), HAS_ERROR = BIT(3), SERVICE_STATE_ON = BIT(4),
-- SERVICE_STATE_TRANSITION = BIT(5).  onoff_service_init rejects any
-- other bit, so this record is a faithful bijection with the reachable
-- flag words.
structure Flags where
  start_waits : Bool
  stop_waits : Bool
  reset_waits : Bool
  has_error : Bool
  state_on : Bool
  state_transition : Bool
deriving Repr, DecidableEq

-- The four service states encoded by the two state bits:
-- OFF = 0, ON = BIT(4), TO_ON = BIT(5)|BIT(4), TO_OFF = BIT(5).
inductive SState
  | off
  | on
  | to_on
  | to_off
deriving Repr, DecidableEq

-- Reading `flags & SERVICE_STATE_MASK` as one of the four states.
def serviceState (f : Flags) : SState :=
  match f.state_on, f.state_transition with
  | false, false => .off
  | true, false => .on
  | true, true => .to_on
  | false, true => .to_off

-- set_service_state: clear the two state bits then OR in the new state.
def set_service_state (f : Flags) (st : SState) : Flags :=
  match st with
  | .off => { f with state_on := false, state_transition := false }
  | .on => { f with state_on := true, state_transition := false }
  | .to_on => { f with state_on := true, state_transition := true }
  | .to_off => { f with state_on := false, state_transition := true }

-- struct onoff_client: `flags` is the raw u16 mode word; handler_null /
-- signal_null model whether async.callback.handler / async.signal is a
-- null pointer; `result` is the completion result field.
structure Client where
  flags : Nat
  handler_null : Bool
  signal_null : Bool
  result : Int
deriving Repr, DecidableEq

-- struct onoff_service.  `clients` is the FIFO waiter list (ids of
-- queued onoff_client structures), `hasReset` models `reset != NULL`,
-- `releaser` the client driving an in-flight stop, `refs` the u16
-- reference count.
structure Service where
  clients : List Nat
  hasReset : Bool
  releaser : Option Nat
  flags : Flags
  refs : Nat
deriving Repr, DecidableEq

-- Whole-system state: the service, the caller-owned client structures
-- (an association list from client id to contents, modelling memory),
-- and a log of completion notifications (client id, result) in the
-- order notify_one delivered them.
structure Sys where
  srv : Service
  clis : List (Nat × Client)
  log : List (Nat × Int)
deriving Repr, DecidableEq

def getCli (s : Sys) (cid : Nat) : Option Client :=
  (s.clis.find? (fun p => p.1 = cid)).map Prod.snd

def setCli (s : Sys) (cid : Nat) (c : Client) : Sys :=
  { s with clis := s.clis.map (fun p => if p.1 = cid then (cid, c) else p) }

-- validate_args: returns (rv, possibly-updated client, nowait flag).
-- The caller initializes nowait to false; only the NO_WAIT mode sets it.
-- On success the client's result field is cleared to 0.
def validate_args (cli : Client) : Int × Client × Bool :=
  let mode := cli.flags
  if mode ≠ Nat.land cli.flags CLIENT_NOTIFY_MASK then
    (-EINVAL, cli, false)
  else
    let rv : Int :=
      if mode = NOTIFY_NO_WAIT then 0
      else if mode = NOTIFY_CALLBACK then
        (if cli.handler_null then -EINVAL else 0)
      else if mode = NOTIFY_SIGNAL then
        (if cli.signal_null then -EINVAL else 0)
      else -EINVAL
    let nowait := mode = NOTIFY_NO_WAIT
    if rv = 0 then (0, { cli with result := 0 }, nowait)
    else (rv, cli, nowait)

-- onoff_service_init with valid arguments (start/stop non-null, flags
-- restricted to the three capability bits): all other fields zeroed.
def onoff_service_init (hasReset start_waits stop_waits reset_waits : Bool) :
    Service :=
  { clients := []
    hasReset := hasReset
    releaser := none
    flags :=
      { start_waits := start_waits
        stop_waits := stop_waits
        reset_waits := reset_waits
        has_error := false
        state_on := false
        state_transition := false }
    refs := 0 }

-- notify_one: store the result in the client structure and record the
-- notification event (the callback/signal dispatch itself is external).
def notify_one (s : Sys) (cid : Nat) (res : Int) : Sys :=
  let s' :=
    match getCli s cid with
    | some c => setCli s cid { c with result := res }
    | none => s
  { s' with log := s'.log ++ [(cid, res)] }

-- notify_all: drain a snapshot list in FIFO order.
def notify_all (s : Sys) (l : List Nat) (res : Int) : Sys :=
  l.foldl (fun s c => notify_one s c res) s

-- Transitions that an operation may invoke after dropping the lock.
inductive TransKind
  | start
  | stop
  | reset
deriving Repr, DecidableEq

-- onoff_start_notify.  Returns the new state and the transition the
-- function invokes on the way out (`some .stop` when it initiates the
-- automatic stop for an ownerless resource).  `isr` models
-- k_is_in_isr().
def onoff_start_notify (isr : Bool) (res : Int) (s : Sys) :
    Sys × Option TransKind :=
  let srv := s.srv
  let clients := srv.clients
  if res < 0 then
    let srv :=
      { srv with
        flags := { srv.flags with state_transition := false, has_error := true }
        clients := [] }
    (notify_all { s with srv := srv } clients res, none)
  else
    let refs := clients.foldl (fun r _ => (r + 1) % 65536) srv.refs
    let fl := set_service_state srv.flags .on
    let stop := refs = 0
    let p :=
      if (stop || isr) && fl.stop_waits then
        ({ fl with has_error := true }, false)
      else (fl, stop)
    let srv := { srv with flags := p.1, refs := refs, clients := [] }
    let s := notify_all { s with srv := srv } clients res
    (s, if p.2 then some .stop else none)

-- z_impl_onoff_request.
def z_impl_onoff_request (isr : Bool) (s : Sys) (cid : Nat) :
    Int × Sys × Option TransKind :=
  match getCli s cid with
  | none => (-EINVAL, s, none)
  | some cli0 =>
    match validate_args cli0 with
    | (rv, cli, no_wait) =>
      if rv ≠ 0 then (rv, s, none)
      else
        let s := setCli s cid cli
        let srv := s.srv
        if srv.flags.has_error then (-EIOERR, s, none)
        else if srv.refs = UINT16_MAX then (-EAGAIN, s, none)
        else
          match serviceState srv.flags with
          | .to_off =>
            if no_wait then (-EWOULDBLOCK, s, none)
            else
              ((3 : Int),
               { s with srv := { srv with clients := srv.clients ++ [cid] } },
               none)
          | .off =>
            if (no_wait || isr) && srv.flags.start_waits then
              (-EWOULDBLOCK, s, none)
            else
              let srv :=
                { srv with
                  flags := set_service_state srv.flags .to_on
                  clients := srv.clients ++ [cid] }
              ((2 : Int), { s with srv := srv }, some .start)
          | .to_on =>
            if no_wait then (-EWOULDBLOCK, s, none)
            else
              ((1 : Int),
               { s with srv := { srv with clients := srv.clients ++ [cid] } },
               none)
          | .on =>
            let s := { s with srv := { srv with refs := (srv.refs + 1) % 65536 } }
            ((0 : Int), notify_one s cid 0, none)

-- onoff_stop_notify.
def onoff_stop_notify (isr : Bool) (res : Int) (s : Sys) :
    Sys × Option TransKind :=
  let srv := s.srv
  let clients := srv.clients
  let releaser := srv.releaser
  let q :=
    if res < 0 then
      ({ srv.flags with state_transition := false, has_error := true },
       true, res, false)
    else if clients.isEmpty then
      (set_service_state srv.flags .off, false, res, false)
    else if isr && srv.flags.start_waits then
      (set_service_state srv.flags .off, true, -EWOULDBLOCK, false)
    else
      (set_service_state srv.flags .to_on, false, res, true)
  match q with
  | (fl, notify_clients, client_res, start) =>
    let refs :=
      match releaser with
      | some _ => (srv.refs + 65535) % 65536
      | none => srv.refs
    let srv :=
      { srv with
        flags := fl
        refs := refs
        releaser := none
        clients := if notify_clients then [] else srv.clients }
    let s := { s with srv := srv }
    let s :=
      match releaser with
      | some rcid => notify_one s rcid res
      | none => s
    if notify_clients then (notify_all s clients client_res, none)
    else if start then (s, some .start)
    else (s, none)

-- z_impl_onoff_release.
def z_impl_onoff_release (isr : Bool) (s : Sys) (cid : Nat) :
    Int × Sys × Option TransKind :=
  match getCli s cid with
  | none => (-EINVAL, s, none)
  | some cli0 =>
    match validate_args cli0 with
    | (rv, cli, no_wait) =>
      if rv ≠ 0 then (rv, s, none)
      else
        let s := setCli s cid cli
        let srv := s.srv
        if srv.flags.has_error then (-EIOERR, s, none)
        else
          match serviceState srv.flags with
          | .on =>
            if srv.refs > 1 then
              let s := { s with srv := { srv with refs := (srv.refs + 65535) % 65536 } }
              ((1 : Int), notify_one s cid 0, none)
            else if (no_wait || isr) && srv.flags.stop_waits then
              (-EWOULDBLOCK, s, none)
            else
              let srv :=
                { srv with
                  flags := set_service_state srv.flags .to_off
                  releaser := some cid }
              ((2 : Int), { s with srv := srv }, some .stop)
          | .to_on => (-EBUSY, s, none)
          | .off => (-EALREADY, s, none)
          | .to_off => (-EALREADY, s, none)

-- onoff_reset_notify: on failure clear only the transition flag; on
-- success clear refs and every flag except the capability bits.  The
-- waiter list is emptied and drained in both cases.
def onoff_reset_notify (res : Int) (s : Sys) : Sys :=
  let srv := s.srv
  let clients := srv.clients
  let srv :=
    if res < 0 then
      { srv with
        flags := { srv.flags with state_transition := false }
        clients := [] }
    else
      { srv with
        refs := 0
        flags :=
          { srv.flags with
            has_error := false
            state_on := false
            state_transition := false }
        clients := [] }
  notify_all { s with srv := srv } clients res

-- z_impl_onoff_service_reset.
def z_impl_onoff_service_reset (isr : Bool) (s : Sys) (cid : Nat) :
    Int × Sys × Option TransKind :=
  if ¬s.srv.hasReset then (-ENOTSUP, s, none)
  else
    match getCli s cid with
    | none => (-EINVAL, s, none)
    | some cli0 =>
      match validate_args cli0 with
      | (rv, cli, no_wait) =>
        if rv ≠ 0 then (rv, s, none)
        else
          let s := setCli s cid cli
          if (no_wait || isr) && s.srv.flags.reset_waits then
            (-EWOULDBLOCK, s, none)
          else
            let srv := s.srv
            let q :=
              if ¬srv.flags.has_error then ((-EINVAL : Int), srv.flags, false)
              else if ¬srv.flags.state_transition then
                ((0 : Int), { srv.flags with state_transition := true }, true)
              else ((0 : Int), srv.flags, false)
            match q with
            | (rv, fl, doReset) =>
              let srv :=
                { srv with
                  flags := fl
                  clients :=
                    if 0 ≤ rv then srv.clients ++ [cid] else srv.clients }
              (rv, { s with srv := srv },
               if doReset then some TransKind.reset else none)

-- z_impl_onoff_cancel.
def z_impl_onoff_cancel (s : Sys) (cid : Nat) : Int × Sys :=
  match getCli s cid with
  | none => (-EINVAL, s)
  | some cli0 =>
    match validate_args cli0 with
    | (rv, cli, _) =>
      if rv ≠ 0 then (rv, s)
      else
        let s := setCli s cid cli
        let srv := s.srv
        if cid ∈ srv.clients then
          let s := { s with srv := { srv with clients := srv.clients.erase cid } }
          ((0 : Int), notify_one s cid (-ECANCELED))
        else if srv.releaser = some cid then
          let s := { s with srv := { srv with refs := 0, releaser := none } }
          ((0 : Int), notify_one s cid (-ECANCELED))
        else (-EALREADY, s)

-- Synchronous-environment driver: every transition the service invokes
-- is completed immediately, its transition function calling the
-- matching notify entry point with result `r` before returning.
def drive (isr : Bool) (r : Int) : Nat → Sys × Option TransKind → Sys × Option TransKind
  | 0, p => p
  | _ + 1, (s, none) => (s, none)
  | n + 1, (s, some TransKind.start) => drive isr r n (onoff_start_notify isr r s)
  | n + 1, (s, some TransKind.stop) => drive isr r n (onoff_stop_notify isr r s)
  | _ + 1, (s, some TransKind.reset) => (onoff_reset_notify r s, none)

-- onoff_request / onoff_release in a thread context against transition
-- functions that complete synchronously with result `r`.
def request_sync (r : Int) (s : Sys) (cid : Nat) : Int × Sys :=
  match z_impl_onoff_request false s cid with
  | (rv, s, t) => (rv, (drive false r 4 (s, t)).1)

def release_sync (r : Int) (s : Sys) (cid : Nat) : Int × Sys :=
  match z_impl_onoff_release false s cid with
  | (rv, s, t) => (rv, (drive false r 4 (s, t)).1)

-- A sequence of API calls, each naming the client structure it uses.
inductive Op
  | req (cid : Nat)
  | rel (cid : Nat)
deriving Repr, DecidableEq

def runOp (r : Int) (s : Sys) : Op → Int × Sys
  | .req c => request_sync r s c
  | .rel c => release_sync r s c

-- Execute a sequence while tallying the number of successful requests
-- not yet released (a call whose return value is non-negative counts).
def runTally (r : Int) : List Op → Sys → Nat → Sys × Nat
  | [], s, t => (s, t)
  | op :: ops, s, t =>
    match runOp r s op with
    | (rv, s') =>
      let t' :=
        if 0 ≤ rv then
          (match op with
           | .req _ => t + 1
           | .rel _ => t - 1)
        else t
      runTally r ops s' t'


-- The invariant maintained between calls by sequences of synchronous
-- successful request/release operations.
def SyncInv (s : Sys) : Prop :=
  s.srv.clients = [] ∧ s.srv.releaser = none ∧
  s.srv.flags.has_error = false ∧ s.srv.flags.state_transition = false ∧
  (s.srv.flags.state_on = true ↔ 0 < s.srv.refs) ∧ s.srv.refs ≤ UINT16_MAX

-- ## Helper lemmas

theorem setCli_srv (s : Sys) (cid : Nat) (c : Client) : (setCli s cid c).srv = s.srv := rfl

theorem notify_one_srv (s : Sys) (cid : Nat) (r : Int) :
    (notify_one s cid r).srv = s.srv := by
  unfold notify_one
  cases h : getCli s cid <;> simp [h, setCli]

theorem notify_one_log (s : Sys) (cid : Nat) (r : Int) :
    (notify_one s cid r).log = s.log ++ [(cid, r)] := by
  unfold notify_one
  cases h : getCli s cid <;> simp [h, setCli]

theorem notify_all_srv (l : List Nat) (s : Sys) (r : Int) :
    (notify_all s l r).srv = s.srv := by
  induction l generalizing s with
  | nil => rfl
  | cons c l ih => simp only [notify_all, List.foldl_cons] at ih ⊢; rw [ih, notify_one_srv]

theorem notify_all_log (l : List Nat) (s : Sys) (r : Int) :
    (notify_all s l r).log = s.log ++ l.map (fun c => (c, r)) := by
  induction l generalizing s with
  | nil => simp [notify_all]
  | cons c l ih =>
    simp only [notify_all, List.foldl_cons] at ih ⊢
    rw [ih, notify_one_log]
    simp

theorem validate_args_rv (c : Client) :
    (validate_args c).1 = 0 ∨ (validate_args c).1 = -EINVAL := by
  unfold validate_args
  dsimp only
  split_ifs <;> simp

theorem drive_none (isr : Bool) (r : Int) (n : Nat) (s : Sys) :
    drive isr r n (s, none) = (s, none) := by
  cases n <;> rfl

theorem drive_start4 (isr : Bool) (r : Int) (s : Sys) :
    drive isr r 4 (s, some TransKind.start) = drive isr r 3 (onoff_start_notify isr r s) :=
  rfl

theorem drive_stop4 (isr : Bool) (r : Int) (s : Sys) :
    drive isr r 4 (s, some TransKind.stop) = drive isr r 3 (onoff_stop_notify isr r s) :=
  rfl

-- Successful start completion with a single queued client, thread context.
theorem onoff_start_notify_one (r : Int) (hr : 0 ≤ r) (s : Sys) (c : Nat)
    (hcl : s.srv.clients = [c]) (hrefs : s.srv.refs = 0) :
    (onoff_start_notify false r s).2 = none ∧
    (onoff_start_notify false r s).1.srv =
      { s.srv with
        flags := set_service_state s.srv.flags .on
        refs := 1
        clients := [] } ∧
    (onoff_start_notify false r s).1.log = s.log ++ [(c, r)] := by
  unfold onoff_start_notify
  simp [hcl, hrefs, if_neg (not_lt.mpr hr), notify_all_srv, notify_all_log]

-- Successful stop completion with no queued clients and a releaser.
theorem onoff_stop_notify_empty (isr : Bool) (r : Int) (hr : 0 ≤ r) (s : Sys) (c : Nat)
    (hcl : s.srv.clients = []) (hrel : s.srv.releaser = some c) :
    (onoff_stop_notify isr r s).2 = none ∧
    (onoff_stop_notify isr r s).1.srv =
      { s.srv with
        flags := set_service_state s.srv.flags .off
        refs := (s.srv.refs + 65535) % 65536
        releaser := none
        clients := [] } ∧
    (onoff_stop_notify isr r s).1.log = s.log ++ [(c, r)] := by
  unfold onoff_stop_notify
  simp [hcl, hrel, if_neg (not_lt.mpr hr), notify_one_srv, notify_one_log]

-- Driving a start transition to synchronous successful completion when a
-- single client is queued.
theorem drive_start_one (r : Int) (hr : 0 ≤ r) (c : Nat) (hasR : Bool) (rel : Option Nat)
    (fl : Flags) (clis : List (Nat × Client)) (log : List (Nat × Int)) :
    (drive false r 4 (⟨⟨[c], hasR, rel, fl, 0⟩, clis, log⟩, some TransKind.start)).1.srv =
      ⟨[], hasR, rel, set_service_state fl .on, 1⟩ := by
  rw [drive_start4]
  rcases hE : onoff_start_notify false r ⟨⟨[c], hasR, rel, fl, 0⟩, clis, log⟩ with ⟨s2, t2⟩
  obtain ⟨ht2, hsrv2, -⟩ :=
    onoff_start_notify_one r hr ⟨⟨[c], hasR, rel, fl, 0⟩, clis, log⟩ c rfl rfl
  rw [hE] at ht2 hsrv2
  simp only at ht2 hsrv2
  subst ht2
  rw [drive_none]
  simpa using hsrv2

-- Driving a stop transition to synchronous successful completion when no
-- clients are queued and a releaser is recorded.
theorem drive_stop_empty (isr : Bool) (r : Int) (hr : 0 ≤ r) (c : Nat) (hasR : Bool)
    (fl : Flags) (refs : Nat) (clis : List (Nat × Client)) (log : List (Nat × Int)) :
    (drive isr r 4 (⟨⟨[], hasR, some c, fl, refs⟩, clis, log⟩, some TransKind.stop)).1.srv =
      ⟨[], hasR, none, set_service_state fl .off, (refs + 65535) % 65536⟩ := by
  rw [drive_stop4]
  rcases hE : onoff_stop_notify isr r ⟨⟨[], hasR, some c, fl, refs⟩, clis, log⟩ with ⟨s2, t2⟩
  obtain ⟨ht2, hsrv2, -⟩ :=
    onoff_stop_notify_empty isr r hr ⟨⟨[], hasR, some c, fl, refs⟩, clis, log⟩ c rfl rfl
  rw [hE] at ht2 hsrv2
  simp only at ht2 hsrv2
  subst ht2
  rw [drive_none]
  simpa using hsrv2

-- ## C1

theorem request_sync_step (r : Int) (hr : 0 ≤ r) (s : Sys) (h : SyncInv s) (cid : Nat) :
    SyncInv (request_sync r s cid).2 ∧
    (request_sync r s cid).2.srv.refs =
      (if 0 ≤ (request_sync r s cid).1 then s.srv.refs + 1 else s.srv.refs) := by
  simp only [SyncInv, UINT16_MAX] at h ⊢
  obtain ⟨srv, clis, log⟩ := s
  obtain ⟨cl, hasR, rel, fl, refs⟩ := srv
  obtain ⟨sw, tw, rw_, he, son, str⟩ := fl
  obtain ⟨hcl, hrel, herr, htr, hon, hle⟩ := h
  simp only at hcl hrel herr htr hon hle
  subst hcl hrel herr htr
  rcases hg : getCli ⟨⟨[], hasR, none, ⟨sw, tw, rw_, false, son, false⟩, refs⟩, clis, log⟩ cid
      with _ | cli0
  · simp [request_sync, z_impl_onoff_request, hg, drive_none, EINVAL, hon, hle]
  · rcases hv : validate_args cli0 with ⟨rv0, cli1, nwv⟩
    rcases validate_args_rv cli0 with h0 | h0 <;> rw [hv] at h0 <;> simp only at h0 <;> subst h0
    · rcases Nat.eq_or_lt_of_le hle with h65 | h65
      · -- refs = UINT16_MAX: -EAGAIN
        subst h65
        have hson : son = true := hon.mpr (by norm_num)
        subst hson
        simp [request_sync, z_impl_onoff_request, hg, hv, setCli, drive_none, EAGAIN,
              UINT16_MAX]
      · cases son with
        | false =>
          have hrefs : refs = 0 := by
            rcases Nat.eq_zero_or_pos refs with h | h
            · exact h
            · exact absurd (hon.mpr h) (by simp)
          subst hrefs
          by_cases hb : nwv = true ∧ sw = true
          · obtain ⟨hnw, hsw⟩ := hb
            subst hnw hsw
            simp [request_sync, z_impl_onoff_request, hg, hv, setCli, UINT16_MAX,
                  serviceState, drive_none, EWOULDBLOCK, EAGAIN]
          · simp only [request_sync, z_impl_onoff_request, hg, hv, setCli, UINT16_MAX,
                       serviceState, set_service_state]
            norm_num [hb]
            rw [drive_start_one r hr]
            simp [set_service_state]
        | true =>
          have hpos : 0 < refs := hon.mp rfl
          have hne : ¬(refs = 65535) := by omega
          simp only [request_sync, z_impl_onoff_request, hg, hv, setCli, UINT16_MAX,
                     serviceState]
          norm_num [hne]
          rw [drive_none]
          simp [notify_one_srv, Nat.mod_eq_of_lt (show refs + 1 < 65536 by omega)]
          omega
    · simp [request_sync, z_impl_onoff_request, hg, hv, drive_none, EINVAL, hon, hle]

theorem release_sync_step (r : Int) (hr : 0 ≤ r) (s : Sys) (h : SyncInv s) (cid : Nat) :
    SyncInv (release_sync r s cid).2 ∧
    (release_sync r s cid).2.srv.refs =
      (if 0 ≤ (release_sync r s cid).1 then s.srv.refs - 1 else s.srv.refs) ∧
    (0 ≤ (release_sync r s cid).1 → 0 < s.srv.refs) := by
  simp only [SyncInv, UINT16_MAX] at h ⊢
  obtain ⟨srv, clis, log⟩ := s
  obtain ⟨cl, hasR, rel, fl, refs⟩ := srv
  obtain ⟨sw, tw, rw_, he, son, str⟩ := fl
  obtain ⟨hcl, hrel, herr, htr, hon, hle⟩ := h
  simp only at hcl hrel herr htr hon hle
  subst hcl hrel herr htr
  rcases hg : getCli ⟨⟨[], hasR, none, ⟨sw, tw, rw_, false, son, false⟩, refs⟩, clis, log⟩ cid
      with _ | cli0
  · simp [release_sync, z_impl_onoff_release, hg, drive_none, EINVAL, hon, hle]
  · rcases hv : validate_args cli0 with ⟨rv0, cli1, nwv⟩
    rcases validate_args_rv cli0 with h0 | h0 <;> rw [hv] at h0 <;> simp only at h0 <;> subst h0
    · cases son with
      | false =>
        have hrefs : refs = 0 := by
          rcases Nat.eq_zero_or_pos refs with h | h
          · exact h
          · exact absurd (hon.mpr h) (by simp)
        subst hrefs
        simp [release_sync, z_impl_onoff_release, hg, hv, setCli, serviceState,
              drive_none, EALREADY]
      | true =>
        have hpos : 0 < refs := hon.mp rfl
        by_cases h1 : refs > 1
        · have hmod : (refs + 65535) % 65536 = refs - 1 := by
            have : refs + 65535 = (refs - 1) + 65536 := by omega
            rw [this, Nat.add_mod_right, Nat.mod_eq_of_lt (by omega)]
          simp only [release_sync, z_impl_onoff_release, hg, hv, setCli, serviceState]
          norm_num [h1]
          rw [drive_none]
          simp [notify_one_srv, hmod]
          omega
        · have hrefs : refs = 1 := by omega
          subst hrefs
          by_cases hb : nwv = true ∧ tw = true
          · obtain ⟨hnw, htw⟩ := hb
            subst hnw htw
            simp [release_sync, z_impl_onoff_release, hg, hv, setCli, serviceState,
                  drive_none, EWOULDBLOCK, EAGAIN]
          · simp only [release_sync, z_impl_onoff_release, hg, hv, setCli, serviceState,
                       set_service_state]
            norm_num [hb]
            rw [drive_stop_empty false r hr]
            simp [set_service_state]
    · simp [release_sync, z_impl_onoff_release, hg, hv, drive_none, EINVAL, hon, hle]


theorem runTally_inv (r : Int) (hr : 0 ≤ r) :
    ∀ (ops : List Op) (s : Sys) (t : Nat), SyncInv s → s.srv.refs = t →
      SyncInv (runTally r ops s t).1 ∧
      (runTally r ops s t).1.srv.refs = (runTally r ops s t).2 := by
  intro ops
  induction ops with
  | nil =>
    intro s t h ht
    exact ⟨h, by simpa [runTally] using ht⟩
  | cons op ops ih =>
    intro s t h ht
    rcases op with c | c
    · obtain ⟨h1, h2⟩ := request_sync_step r hr s h c
      rcases hE : request_sync r s c with ⟨rv, s'⟩
      rw [hE] at h1 h2
      simp only at h1 h2
      simp only [runTally, runOp, hE]
      by_cases hrv : 0 ≤ rv
      · simp only [if_pos hrv]
        exact ih s' (t + 1) h1 (by rw [h2, if_pos hrv, ht])
      · simp only [if_neg hrv]
        exact ih s' t h1 (by rw [h2, if_neg hrv, ht])
    · obtain ⟨h1, h2, h3⟩ := release_sync_step r hr s h c
      rcases hE : release_sync r s c with ⟨rv, s'⟩
      rw [hE] at h1 h2 h3
      simp only at h1 h2 h3
      simp only [runTally, runOp, hE]
      by_cases hrv : 0 ≤ rv
      · simp only [if_pos hrv]
        exact ih s' (t - 1) h1 (by rw [h2, if_pos hrv, ht])
      · simp only [if_neg hrv]
        exact ih s' t h1 (by rw [h2, if_neg hrv, ht])

theorem SyncInv_state (s : Sys) (h : SyncInv s) :
    serviceState s.srv.flags = SState.on ↔ 0 < s.srv.refs := by
  obtain ⟨-, -, -, htr, hon, -⟩ := h
  unfold serviceState
  rw [htr]
  cases hb : s.srv.flags.state_on
  · rw [hb] at hon
    simp at hon
    simp [Nat.eq_zero_of_not_pos, hon]
  · rw [hb] at hon
    simp at hon
    simp [hon]

/-- C1: starting from an initialized service in the Off state with no error,
for every sequence of onoff_request and onoff_release calls whose start/stop
transitions all complete synchronously with a non-negative result, at every
point between calls the refs counter equals the number of successful requests
not yet released, and the service state is On exactly when refs > 0. -/
theorem C1_sync_refs_invariant (hasReset sw tw rw_ : Bool) (cs : List (Nat × Client))
    (r : Int) (hr : 0 ≤ r) (ops : List Op) :
    (runTally r ops ⟨onoff_service_init hasReset sw tw rw_, cs, []⟩ 0).1.srv.refs =
      (runTally r ops ⟨onoff_service_init hasReset sw tw rw_, cs, []⟩ 0).2 ∧
    (serviceState
        (runTally r ops ⟨onoff_service_init hasReset sw tw rw_, cs, []⟩ 0).1.srv.flags =
        SState.on ↔
      0 < (runTally r ops ⟨onoff_service_init hasReset sw tw rw_, cs, []⟩ 0).2) := by
  have h0 : SyncInv ⟨onoff_service_init hasReset sw tw rw_, cs, []⟩ := by
    simp [SyncInv, onoff_service_init, UINT16_MAX]
  obtain ⟨h1, h2⟩ := runTally_inv r hr ops _ 0 h0 rfl
  refine ⟨h2, ?_⟩
  rw [← h2]
  exact SyncInv_state _ h1

theorem C1_sync_refs_invariant_witness :
    (0 : Int) ≤ 0 ∧
    ((runTally 0 [Op.req 1, Op.req 2, Op.rel 1]
        ⟨onoff_service_init false false false false,
         [(1, ⟨2, false, false, 7⟩), (2, ⟨2, false, false, 7⟩)], []⟩ 0).1.srv.refs =
      (runTally 0 [Op.req 1, Op.req 2, Op.rel 1]
        ⟨onoff_service_init false false false false,
         [(1, ⟨2, false, false, 7⟩), (2, ⟨2, false, false, 7⟩)], []⟩ 0).2 ∧
    (serviceState
        (runTally 0 [Op.req 1, Op.req 2, Op.rel 1]
          ⟨onoff_service_init false false false false,
           [(1, ⟨2, false, false, 7⟩), (2, ⟨2, false, false, 7⟩)], []⟩ 0).1.srv.flags =
        SState.on ↔
      0 < (runTally 0 [Op.req 1, Op.req 2, Op.rel 1]
          ⟨onoff_service_init false false false false,
           [(1, ⟨2, false, false, 7⟩), (2, ⟨2, false, false, 7⟩)], []⟩ 0).2)) :=
  ⟨le_refl 0,
   C1_sync_refs_invariant false false false false
     [(1, ⟨2, false, false, 7⟩), (2, ⟨2, false, false, 7⟩)] 0 (le_refl 0)
     [Op.req 1, Op.req 2, Op.rel 1]⟩


-- ## More shared helpers

theorem foldl_mod_count (l : List Nat) (a : Nat) (ha : a < 65536) :
    l.foldl (fun r _ => (r + 1) % 65536) a = (a + l.length) % 65536 := by
  induction l generalizing a with
  | nil => simp [Nat.mod_eq_of_lt ha]
  | cons x l ih =>
    simp only [List.foldl_cons, List.length_cons]
    rw [ih ((a + 1) % 65536) (Nat.mod_lt _ (by norm_num))]
    omega

-- Successful start completion, fully general.
theorem onoff_start_notify_success (isr : Bool) (res : Int) (hres : 0 ≤ res) (s : Sys) :
    (onoff_start_notify isr res s).1.srv.refs =
      s.srv.clients.foldl (fun r _ => (r + 1) % 65536) s.srv.refs ∧
    (onoff_start_notify isr res s).1.log =
      s.log ++ s.srv.clients.map (fun c => (c, res)) ∧
    (onoff_start_notify isr res s).1.srv.clients = [] := by
  unfold onoff_start_notify
  simp [if_neg (not_lt.mpr hres), notify_all_srv, notify_all_log]

/-- C3: if a start transition completes successfully with zero queued
clients, the service immediately initiates the stop transition, except that
when the stop transition function may block (which the notify context
forbids) it instead raises has_error. -/
theorem C3_auto_stop (s : Sys) (isr : Bool) (res : Int) (hres : 0 ≤ res)
    (hcl : s.srv.clients = []) (hrefs : s.srv.refs = 0) :
    (s.srv.flags.stop_waits = false →
      (onoff_start_notify isr res s).2 = some TransKind.stop ∧
      (onoff_start_notify isr res s).1.srv.flags.has_error = s.srv.flags.has_error) ∧
    (s.srv.flags.stop_waits = true →
      (onoff_start_notify isr res s).2 = none ∧
      (onoff_start_notify isr res s).1.srv.flags.has_error = true) := by
  obtain ⟨srv, clis, log⟩ := s
  obtain ⟨cl, hasR, rel, fl, refs⟩ := srv
  obtain ⟨sw, tw, rw_, he, son, str⟩ := fl
  simp only at hcl hrefs
  subst hcl hrefs
  cases tw with
  | false =>
    simp [onoff_start_notify, if_neg (not_lt.mpr hres), set_service_state, notify_all]
  | true =>
    simp [onoff_start_notify, if_neg (not_lt.mpr hres), set_service_state, notify_all]

theorem C3_auto_stop_witness :
    (0 : Int) ≤ 0 ∧
    ((onoff_start_notify false 0
        ⟨⟨[], false, none, ⟨false, false, false, false, true, true⟩, 0⟩, [], []⟩).2 =
      some TransKind.stop) := by
  refine ⟨le_refl 0, ?_⟩
  exact (C3_auto_stop
    ⟨⟨[], false, none, ⟨false, false, false, false, true, true⟩, 0⟩, [], []⟩
    false 0 (le_refl 0) rfl rfl).1 rfl |>.1

/-- C8: with ONOFF_SERVICE_START_WAITS set, a no-wait request on an Off
service returns -EWOULDBLOCK, invokes no transition, and leaves the service
unchanged. -/
theorem C8_no_wait_rejected (s : Sys) (c : Nat) (cl : Client) (isr : Bool)
    (hg : getCli s c = some cl) (hm : cl.flags = NOTIFY_NO_WAIT)
    (hsw : s.srv.flags.start_waits = true)
    (herr : s.srv.flags.has_error = false)
    (hon : s.srv.flags.state_on = false) (htr : s.srv.flags.state_transition = false)
    (hrefs : s.srv.refs = 0) :
    (z_impl_onoff_request isr s c).1 = -EWOULDBLOCK ∧
    (z_impl_onoff_request isr s c).2.1.srv = s.srv ∧
    (z_impl_onoff_request isr s c).2.2 = none := by
  obtain ⟨srv, clis, log⟩ := s
  obtain ⟨cl0, hasR, rel, fl, refs⟩ := srv
  obtain ⟨sw, tw, rw_, he, son, str⟩ := fl
  simp only at hsw herr hon htr hrefs
  subst hsw herr hon htr hrefs
  have hval : validate_args cl = (0, { cl with result := 0 }, true) := by
    unfold validate_args
    have hland : Nat.land 0 3 = 0 := by decide
    simp [hm, NOTIFY_NO_WAIT, CLIENT_NOTIFY_MASK, hland]
  simp [z_impl_onoff_request, hg, hval, setCli, UINT16_MAX, serviceState, EWOULDBLOCK, EAGAIN]

theorem C8_no_wait_rejected_witness :
    (z_impl_onoff_request false
      ⟨⟨[], false, none, ⟨true, false, false, false, false, false⟩, 0⟩,
       [(1, ⟨0, false, false, 7⟩)], []⟩ 1).1 = -EWOULDBLOCK :=
  (C8_no_wait_rejected
    ⟨⟨[], false, none, ⟨true, false, false, false, false, false⟩, 0⟩,
     [(1, ⟨0, false, false, 7⟩)], []⟩ 1 ⟨0, false, false, 7⟩ false
    rfl rfl rfl rfl rfl rfl rfl).1

/-- C4 (amended): when a transition completes with a negative result the
service sets has_error and notifies every queued waiter (and, for a stop,
the recorded releaser) with that result; a failed start leaves refs
unchanged, while a failed stop with a recorded releaser removes that
reference, decrementing refs by one (mod 2^16). -/
theorem C4_failed_transition (s : Sys) (isr : Bool) (res : Int) (hres : res < 0) :
    ((onoff_start_notify isr res s).1.srv.flags.has_error = true ∧
     (onoff_start_notify isr res s).1.srv.refs = s.srv.refs ∧
     (onoff_start_notify isr res s).1.log =
       s.log ++ s.srv.clients.map (fun c => (c, res))) ∧
    ((onoff_stop_notify isr res s).1.srv.flags.has_error = true ∧
     (onoff_stop_notify isr res s).1.srv.refs =
       (match s.srv.releaser with
        | some _ => (s.srv.refs + 65535) % 65536
        | none => s.srv.refs) ∧
     (onoff_stop_notify isr res s).1.log =
       s.log ++
         (match s.srv.releaser with
          | some rc => [(rc, res)]
          | none => []) ++ s.srv.clients.map (fun c => (c, res))) := by
  constructor
  · unfold onoff_start_notify
    simp [if_pos hres, notify_all_srv, notify_all_log]
  · unfold onoff_stop_notify
    rcases hrel : s.srv.releaser with _ | rc
    · simp [if_pos hres, hrel, notify_all_srv, notify_all_log]
    · simp [if_pos hres, hrel, notify_all_srv, notify_all_log, notify_one_srv,
            notify_one_log]

theorem C4_failed_transition_witness :
    (-5 : Int) < 0 ∧
    (onoff_stop_notify false (-5)
      ⟨⟨[], false, some 1, ⟨false, false, false, false, false, true⟩, 1⟩,
       [(1, ⟨2, false, false, 0⟩)], []⟩).1.srv.flags.has_error = true :=
  ⟨by norm_num,
   (C4_failed_transition
     ⟨⟨[], false, some 1, ⟨false, false, false, false, false, true⟩, 1⟩,
      [(1, ⟨2, false, false, 0⟩)], []⟩ false (-5) (by norm_num)).2.1⟩

-- C4 counterexample: a failed stop driven by a releaser does not leave refs
-- at its pre-transition value: refs drops from 1 to 0.
theorem C4_cex :
    ¬((onoff_stop_notify false (-5)
        ⟨⟨[], false, some 1, ⟨false, false, false, false, false, true⟩, 1⟩,
         [(1, ⟨2, false, false, 0⟩)], []⟩).1.srv.refs =
      (⟨⟨[], false, some 1, ⟨false, false, false, false, false, true⟩, 1⟩,
        [(1, ⟨2, false, false, 0⟩)], []⟩ : Sys).srv.refs) := by
  decide


-- Start completion delivers one notification per queued client with the
-- transition result, on the success path and the failure path alike.
theorem onoff_start_notify_log (isr : Bool) (res : Int) (s : Sys) :
    (onoff_start_notify isr res s).1.log =
      s.log ++ s.srv.clients.map (fun c => (c, res)) := by
  unfold onoff_start_notify
  by_cases h : res < 0
  · simp [h, notify_all_log]
  · simp [h, notify_all_log]

/-- C7 (amended): all clients queued while a start transition is in flight
are notified with the same result value — the transition's success or
failure result — when it resolves; a valid blocking request during the
transition is accepted with return 1 and appended to the queue; after a
successful resolution refs equals the number of queued clients reduced mod
2^16 (so equals N whenever N < 65536, refs being a u16 counter). -/
theorem C7_queued_clients (isr : Bool) (res : Int) (s : Sys)
    (hrefs : s.srv.refs = 0) :
    (onoff_start_notify isr res s).1.log =
      s.log ++ s.srv.clients.map (fun c => (c, res)) ∧
    (0 ≤ res →
      (onoff_start_notify isr res s).1.srv.refs = s.srv.clients.length % 65536 ∧
      (s.srv.clients.length < 65536 →
        (onoff_start_notify isr res s).1.srv.refs = s.srv.clients.length)) ∧
    (∀ (isr' : Bool) (c : Nat) (cl : Client), getCli s c = some cl →
      (validate_args cl).1 = 0 → (validate_args cl).2.2 = false →
      s.srv.flags.has_error = false → serviceState s.srv.flags = SState.to_on →
      (z_impl_onoff_request isr' s c).1 = 1 ∧
      (z_impl_onoff_request isr' s c).2.1.srv.clients = s.srv.clients ++ [c]) := by
  refine ⟨onoff_start_notify_log isr res s, ?_, ?_⟩
  · intro hres
    obtain ⟨h1, -, -⟩ := onoff_start_notify_success isr res hres s
    constructor
    · rw [h1, hrefs, foldl_mod_count _ _ (by norm_num)]
      simp
    · intro hlt
      rw [h1, hrefs, foldl_mod_count _ _ (by norm_num)]
      simp [Nat.mod_eq_of_lt hlt]
  · intro isr' c cl hg hv hw herr hst
    rcases hvE : validate_args cl with ⟨rv0, cl1, nw⟩
    rw [hvE] at hv hw
    simp only at hv hw
    subst hv hw
    simp [z_impl_onoff_request, hg, hvE, setCli, herr, hst, UINT16_MAX, hrefs]

theorem C7_queued_clients_witness :
    (onoff_start_notify false (-7)
      ⟨⟨[1, 2], false, none, ⟨false, false, false, false, true, true⟩, 0⟩,
       [(1, ⟨2, false, false, 9⟩), (2, ⟨2, false, false, 9⟩)], []⟩).1.log =
      [] ++ [1, 2].map (fun c => (c, (-7 : Int))) ∧
    (onoff_start_notify false 0
      ⟨⟨[1, 2], false, none, ⟨false, false, false, false, true, true⟩, 0⟩,
       [(1, ⟨2, false, false, 9⟩), (2, ⟨2, false, false, 9⟩)], []⟩).1.srv.refs =
      [1, 2].length % 65536 :=
  ⟨(C7_queued_clients false (-7)
     ⟨⟨[1, 2], false, none, ⟨false, false, false, false, true, true⟩, 0⟩,
      [(1, ⟨2, false, false, 9⟩), (2, ⟨2, false, false, 9⟩)], []⟩ rfl).1,
   ((C7_queued_clients false 0
     ⟨⟨[1, 2], false, none, ⟨false, false, false, false, true, true⟩, 0⟩,
      [(1, ⟨2, false, false, 9⟩), (2, ⟨2, false, false, 9⟩)], []⟩ rfl).2.1
     (le_refl 0)).1⟩

-- C7 counterexample: with 65536 clients queued during the start transition,
-- a successful resolution leaves refs = 0, not 65536: the u16 counter wraps.
theorem C7_cex :
    ¬((onoff_start_notify false 0
        ⟨⟨List.range 65536, false, none, ⟨false, false, false, false, true, true⟩, 0⟩,
         [], []⟩).1.srv.refs = (List.range 65536).length) := by
  obtain ⟨h1, -, -⟩ := onoff_start_notify_success false 0 (le_refl 0)
    ⟨⟨List.range 65536, false, none, ⟨false, false, false, false, true, true⟩, 0⟩, [], []⟩
  rw [h1]
  simp only [foldl_mod_count _ _ (show (0:Nat) < 65536 by norm_num), List.length_range]
  norm_num

/-- C2: a failed start or stop transition sets has_error; while has_error is
set every validated onoff_request / onoff_release returns -EIO (EIOERR) and
leaves the service state unchanged; a reset transition completing with a
non-negative result restores a freshly-constructed service state: Off,
refs = 0, has_error cleared, no waiters, capability flags preserved. -/
theorem C2_error_latch_reset :
    (∀ (isr : Bool) (res : Int) (s : Sys), res < 0 →
      (onoff_start_notify isr res s).1.srv.flags.has_error = true ∧
      (onoff_stop_notify isr res s).1.srv.flags.has_error = true) ∧
    (∀ (isr : Bool) (s : Sys) (c : Nat) (cl : Client),
      getCli s c = some cl → (validate_args cl).1 = 0 →
      s.srv.flags.has_error = true →
      (z_impl_onoff_request isr s c).1 = -EIOERR ∧
      (z_impl_onoff_request isr s c).2.1.srv = s.srv ∧
      (z_impl_onoff_release isr s c).1 = -EIOERR ∧
      (z_impl_onoff_release isr s c).2.1.srv = s.srv) ∧
    (∀ (res : Int) (s : Sys), 0 ≤ res →
      (onoff_reset_notify res s).srv.flags.has_error = false ∧
      (onoff_reset_notify res s).srv.refs = 0 ∧
      serviceState (onoff_reset_notify res s).srv.flags = SState.off ∧
      (onoff_reset_notify res s).srv.clients = [] ∧
      (onoff_reset_notify res s).srv.flags.start_waits = s.srv.flags.start_waits ∧
      (onoff_reset_notify res s).srv.flags.stop_waits = s.srv.flags.stop_waits ∧
      (onoff_reset_notify res s).srv.flags.reset_waits = s.srv.flags.reset_waits) := by
  refine ⟨?_, ?_, ?_⟩
  · intro isr res s hres
    constructor
    · unfold onoff_start_notify
      simp [if_pos hres, notify_all_srv]
    · unfold onoff_stop_notify
      rcases hrel : s.srv.releaser with _ | rc <;>
        simp [if_pos hres, hrel, notify_all_srv, notify_one_srv]
  · intro isr s c cl hg hv herr
    rcases hvE : validate_args cl with ⟨rv0, cl1, nw⟩
    rw [hvE] at hv
    simp only at hv
    subst hv
    simp [z_impl_onoff_request, z_impl_onoff_release, hg, hvE, setCli, herr]
  · intro res s hres
    unfold onoff_reset_notify
    simp [if_neg (not_lt.mpr hres), notify_all_srv, serviceState]

theorem C2_error_latch_reset_witness :
    (-3 : Int) < 0 ∧
    (onoff_start_notify false (-3)
      ⟨⟨[], false, none, ⟨false, false, false, false, true, true⟩, 0⟩, [], []⟩).1.srv.flags.has_error =
      true :=
  ⟨by norm_num,
   (C2_error_latch_reset.1 false (-3)
     ⟨⟨[], false, none, ⟨false, false, false, false, true, true⟩, 0⟩, [], []⟩ (by norm_num)).1⟩


-- Characterization of a synchronous-success request from the Off state
-- with a validated blocking client.
theorem request_sync_off (r : Int) (hr : 0 ≤ r) (s : Sys) (c : Nat) (cl : Client)
    (hg : getCli s c = some cl) (hv : (validate_args cl).1 = 0)
    (hw : (validate_args cl).2.2 = false)
    (hcl : s.srv.clients = []) (herr : s.srv.flags.has_error = false)
    (hon : s.srv.flags.state_on = false) (htr : s.srv.flags.state_transition = false)
    (hrefs : s.srv.refs = 0) :
    (request_sync r s c).1 = 2 ∧
    (request_sync r s c).2.srv =
      ⟨[], s.srv.hasReset, s.srv.releaser,
       { s.srv.flags with state_on := true, state_transition := false }, 1⟩ := by
  obtain ⟨srv, clis, log⟩ := s
  obtain ⟨cl0, hasR, rel, fl, refs⟩ := srv
  obtain ⟨sw, tw, rw_, he, son, str⟩ := fl
  simp only at hcl herr hon htr hrefs
  subst hcl herr hon htr hrefs
  rcases hvE : validate_args cl with ⟨rv0, cl1, nw⟩
  rw [hvE] at hv hw
  simp only at hv hw
  subst hv hw
  simp only [request_sync, z_impl_onoff_request, hg, hvE, setCli, UINT16_MAX, serviceState,
             set_service_state]
  norm_num
  rw [drive_start_one r hr]
  simp [set_service_state]

-- Characterization of a synchronous-success release of the last reference
-- with a validated blocking client.
theorem release_sync_last (r : Int) (hr : 0 ≤ r) (s : Sys) (c : Nat) (cl : Client)
    (hg : getCli s c = some cl) (hv : (validate_args cl).1 = 0)
    (hw : (validate_args cl).2.2 = false)
    (hcl : s.srv.clients = []) (herr : s.srv.flags.has_error = false)
    (hon : s.srv.flags.state_on = true) (htr : s.srv.flags.state_transition = false)
    (hrefs : s.srv.refs = 1) :
    (release_sync r s c).1 = 2 ∧
    (release_sync r s c).2.srv =
      ⟨[], s.srv.hasReset, none,
       { s.srv.flags with state_on := false, state_transition := false }, 0⟩ := by
  obtain ⟨srv, clis, log⟩ := s
  obtain ⟨cl0, hasR, rel, fl, refs⟩ := srv
  obtain ⟨sw, tw, rw_, he, son, str⟩ := fl
  simp only at hcl herr hon htr hrefs
  subst hcl herr hon htr hrefs
  rcases hvE : validate_args cl with ⟨rv0, cl1, nw⟩
  rw [hvE] at hv hw
  simp only at hv hw
  subst hv hw
  simp only [release_sync, z_impl_onoff_release, hg, hvE, setCli, serviceState,
             set_service_state]
  norm_num
  rw [drive_stop_empty false r hr]
  simp [set_service_state]

/-- C6: for synchronous successful start/stop transitions, one onoff_request
followed by one onoff_release from the Off state with no error returns the
service to exactly its initial state: Off, refs = 0, has_error = false. -/
theorem C6_round_trip (s : Sys) (c1 c2 : Nat) (cl1 cl2 : Client) (r : Int) (hr : 0 ≤ r)
    (hg1 : getCli s c1 = some cl1) (hv1 : (validate_args cl1).1 = 0)
    (hw1 : (validate_args cl1).2.2 = false)
    (hg2 : getCli (request_sync r s c1).2 c2 = some cl2)
    (hv2 : (validate_args cl2).1 = 0) (hw2 : (validate_args cl2).2.2 = false)
    (hcl : s.srv.clients = []) (hrel : s.srv.releaser = none)
    (herr : s.srv.flags.has_error = false)
    (hon : s.srv.flags.state_on = false) (htr : s.srv.flags.state_transition = false)
    (hrefs : s.srv.refs = 0) :
    (request_sync r s c1).1 = 2 ∧
    (release_sync r (request_sync r s c1).2 c2).1 = 2 ∧
    (release_sync r (request_sync r s c1).2 c2).2.srv = s.srv := by
  obtain ⟨ha, hsrv1⟩ := request_sync_off r hr s c1 cl1 hg1 hv1 hw1 hcl herr hon htr hrefs
  obtain ⟨hb, hsrv2⟩ := release_sync_last r hr (request_sync r s c1).2 c2 cl2 hg2 hv2 hw2
    (by rw [hsrv1]) (by rw [hsrv1]; exact herr) (by rw [hsrv1]) (by rw [hsrv1])
    (by rw [hsrv1])
  refine ⟨ha, hb, ?_⟩
  rw [hsrv2, hsrv1]
  obtain ⟨srv, clis, log⟩ := s
  obtain ⟨cl0, hasR, rel, fl, refs⟩ := srv
  obtain ⟨sw, tw, rw_, he, son, str⟩ := fl
  simp only at hcl hrel herr hon htr hrefs
  subst hcl hrel herr hon htr hrefs
  rfl

theorem C6_round_trip_witness :
    (request_sync 0
      ⟨⟨[], false, none, ⟨false, false, false, false, false, false⟩, 0⟩,
       [(1, ⟨2, false, false, 7⟩), (2, ⟨2, false, false, 7⟩)], []⟩ 1).1 = 2 ∧
    (release_sync 0
      (request_sync 0
        ⟨⟨[], false, none, ⟨false, false, false, false, false, false⟩, 0⟩,
         [(1, ⟨2, false, false, 7⟩), (2, ⟨2, false, false, 7⟩)], []⟩ 1).2 2).1 = 2 ∧
    (release_sync 0
      (request_sync 0
        ⟨⟨[], false, none, ⟨false, false, false, false, false, false⟩, 0⟩,
         [(1, ⟨2, false, false, 7⟩), (2, ⟨2, false, false, 7⟩)], []⟩ 1).2 2).2.srv =
      (⟨⟨[], false, none, ⟨false, false, false, false, false, false⟩, 0⟩,
        [(1, ⟨2, false, false, 7⟩), (2, ⟨2, false, false, 7⟩)], []⟩ : Sys).srv :=
  C6_round_trip
    ⟨⟨[], false, none, ⟨false, false, false, false, false, false⟩, 0⟩,
     [(1, ⟨2, false, false, 7⟩), (2, ⟨2, false, false, 7⟩)], []⟩ 1 2
    ⟨2, false, false, 7⟩ ⟨2, false, false, 7⟩ 0 (le_refl 0)
    (by decide) (by decide) (by decide)
    (by decide) (by decide) (by decide)
    rfl rfl rfl rfl rfl rfl


/-- C9: a successful start completion that finds zero queued clients (with
ONOFF_SERVICE_STOP_WAITS clear, thread context) initiates the automatic stop
while leaving the state bits at On — not Stopping — so a request submitted
before that stop completes is accepted on the On fast path: it returns 0,
increments refs to 1, and notifies the client immediately with result 0. -/
theorem C9_on_during_auto_stop (s : Sys) (res : Int) (hres : 0 ≤ res)
    (hcl : s.srv.clients = []) (hrefs : s.srv.refs = 0)
    (herr : s.srv.flags.has_error = false) (htw : s.srv.flags.stop_waits = false) :
    (onoff_start_notify false res s).2 = some TransKind.stop ∧
    serviceState (onoff_start_notify false res s).1.srv.flags = SState.on ∧
    (∀ (c : Nat) (cl : Client),
      getCli (onoff_start_notify false res s).1 c = some cl →
      (validate_args cl).1 = 0 →
      (z_impl_onoff_request false (onoff_start_notify false res s).1 c).1 = 0 ∧
      (z_impl_onoff_request false (onoff_start_notify false res s).1 c).2.1.srv.refs = 1 ∧
      (z_impl_onoff_request false (onoff_start_notify false res s).1 c).2.2 = none ∧
      (z_impl_onoff_request false (onoff_start_notify false res s).1 c).2.1.log =
        (onoff_start_notify false res s).1.log ++ [(c, 0)]) := by
  obtain ⟨srv, clis, log⟩ := s
  obtain ⟨cl0, hasR, rel, fl, refs⟩ := srv
  obtain ⟨sw, tw, rw_, he, son, str⟩ := fl
  simp only at hcl hrefs herr htw
  subst hcl hrefs herr htw
  have hE : onoff_start_notify false res
      ⟨⟨[], hasR, rel, ⟨sw, false, rw_, false, son, str⟩, 0⟩, clis, log⟩ =
      (⟨⟨[], hasR, rel, ⟨sw, false, rw_, false, true, false⟩, 0⟩, clis, log⟩,
       some TransKind.stop) := by
    unfold onoff_start_notify
    simp [if_neg (not_lt.mpr hres), set_service_state, notify_all]
  rw [hE]
  refine ⟨rfl, rfl, ?_⟩
  intro c cl hg hv
  rcases hvE : validate_args cl with ⟨rv0, cl1, nw⟩
  rw [hvE] at hv
  simp only at hv
  subst hv
  simp [z_impl_onoff_request, hg, hvE, setCli, UINT16_MAX, serviceState, notify_one_srv,
        notify_one_log]

theorem C9_on_during_auto_stop_witness :
    (onoff_start_notify false 0
      ⟨⟨[], false, none, ⟨false, false, false, false, true, true⟩, 0⟩,
       [(1, ⟨2, false, false, 7⟩)], []⟩).2 = some TransKind.stop ∧
    (z_impl_onoff_request false
      (onoff_start_notify false 0
        ⟨⟨[], false, none, ⟨false, false, false, false, true, true⟩, 0⟩,
         [(1, ⟨2, false, false, 7⟩)], []⟩).1 1).1 = 0 := by
  obtain ⟨h1, -, h3⟩ := C9_on_during_auto_stop
    ⟨⟨[], false, none, ⟨false, false, false, false, true, true⟩, 0⟩,
     [(1, ⟨2, false, false, 7⟩)], []⟩ 0 (le_refl 0) rfl rfl rfl rfl
  exact ⟨h1, (h3 1 ⟨2, false, false, 7⟩ (by decide) (by decide)).1⟩

/-- C5: onoff_cancel of a client still queued removes exactly that client,
notifies it with -ECANCELED and leaves the refs later assigned to the
remaining waiters unchanged; cancelling the recorded releaser of an
in-progress stop notifies it with -ECANCELED and, once the in-flight stop
resolves successfully (with no queued requests), the service ends Off with
refs = 0; otherwise onoff_cancel returns -EALREADY. -/
theorem C5_cancel (s : Sys) (c : Nat) (cl : Client)
    (hg : getCli s c = some cl) (hv : (validate_args cl).1 = 0) :
    (c ∈ s.srv.clients →
      (z_impl_onoff_cancel s c).1 = 0 ∧
      (z_impl_onoff_cancel s c).2.srv.clients = s.srv.clients.erase c ∧
      (z_impl_onoff_cancel s c).2.srv.refs = s.srv.refs ∧
      (z_impl_onoff_cancel s c).2.log = s.log ++ [(c, -ECANCELED)] ∧
      (∀ (isr : Bool) (res : Int), 0 ≤ res → s.srv.refs = 0 →
        (onoff_start_notify isr res (z_impl_onoff_cancel s c).2).1.srv.refs =
          (s.srv.clients.erase c).length % 65536 ∧
        (onoff_start_notify isr res (z_impl_onoff_cancel s c).2).1.log =
          s.log ++ [(c, -ECANCELED)] ++ (s.srv.clients.erase c).map (fun w => (w, res)))) ∧
    (c ∉ s.srv.clients → s.srv.releaser = some c →
      (z_impl_onoff_cancel s c).1 = 0 ∧
      (z_impl_onoff_cancel s c).2.log = s.log ++ [(c, -ECANCELED)] ∧
      (z_impl_onoff_cancel s c).2.srv.refs = 0 ∧
      (z_impl_onoff_cancel s c).2.srv.releaser = none ∧
      (∀ (isr : Bool) (res : Int), 0 ≤ res → s.srv.clients = [] →
        serviceState (onoff_stop_notify isr res (z_impl_onoff_cancel s c).2).1.srv.flags =
          SState.off ∧
        (onoff_stop_notify isr res (z_impl_onoff_cancel s c).2).1.srv.refs = 0)) ∧
    (c ∉ s.srv.clients → ¬s.srv.releaser = some c →
      (z_impl_onoff_cancel s c).1 = -EALREADY ∧
      (z_impl_onoff_cancel s c).2.srv = s.srv) := by
  rcases hvE : validate_args cl with ⟨rv0, cl1, nw⟩
  rw [hvE] at hv
  simp only at hv
  subst hv
  refine ⟨?_, ?_, ?_⟩
  · intro hmem
    have hcan : z_impl_onoff_cancel s c =
        (0, notify_one
          { setCli s c cl1 with
            srv := { s.srv with clients := s.srv.clients.erase c } } c (-ECANCELED)) := by
      simp [z_impl_onoff_cancel, hg, hvE, setCli, hmem]
    rw [hcan]
    refine ⟨rfl, by simp [notify_one_srv], by simp [notify_one_srv],
            by simp [notify_one_log, setCli], ?_⟩
    intro isr res hres hrefs
    obtain ⟨h1, h2, -⟩ := onoff_start_notify_success isr res hres
      (notify_one
        { setCli s c cl1 with
          srv := { s.srv with clients := s.srv.clients.erase c } } c (-ECANCELED))
    rw [h1, h2]
    simp [notify_one_srv, notify_one_log, setCli, hrefs,
          foldl_mod_count _ _ (show (0:Nat) < 65536 by norm_num)]
  · intro hmem hrel
    have hnmem : ¬(c ∈ s.srv.clients) := hmem
    have hcan : z_impl_onoff_cancel s c =
        (0, notify_one
          { setCli s c cl1 with
            srv := { s.srv with refs := 0, releaser := none } } c (-ECANCELED)) := by
      simp [z_impl_onoff_cancel, hg, hvE, setCli, hnmem, hrel]
    rw [hcan]
    refine ⟨rfl, by simp [notify_one_log, setCli], by simp [notify_one_srv],
            by simp [notify_one_srv], ?_⟩
    intro isr res hres hcl
    unfold onoff_stop_notify
    simp [notify_one_srv, notify_one_log, setCli, hcl, if_neg (not_lt.mpr hres),
          serviceState, set_service_state]
  · intro hmem hrel
    have hnmem : ¬(c ∈ s.srv.clients) := hmem
    simp [z_impl_onoff_cancel, hg, hvE, setCli, hnmem, hrel, EALREADY]


theorem C5_cancel_witness :
    (z_impl_onoff_cancel
      ⟨⟨[1, 2], false, none, ⟨false, false, false, false, true, true⟩, 0⟩,
       [(1, ⟨2, false, false, 7⟩), (2, ⟨2, false, false, 7⟩)], []⟩ 1).1 = 0 := by
  obtain ⟨h1, -, -⟩ := C5_cancel
    ⟨⟨[1, 2], false, none, ⟨false, false, false, false, true, true⟩, 0⟩,
     [(1, ⟨2, false, false, 7⟩), (2, ⟨2, false, false, 7⟩)], []⟩ 1 ⟨2, false, false, 7⟩
    (by decide) (by decide)
  exact (h1 (by decide)).1

-- ## C10 machinery

theorem find_map_set (l : List (Nat × Client)) (c : Nat) (x : Client)
    (h : ∃ p ∈ l, p.1 = c) :
    (l.map (fun p => if p.1 = c then (c, x) else p)).find? (fun p => p.1 = c) =
      some (c, x) := by
  induction l with
  | nil => simp at h
  | cons p l ih =>
    by_cases hp : p.1 = c
    · simp [hp]
    · rcases h with ⟨q, hq, hqc⟩
      rcases List.mem_cons.mp hq with rfl | hq'
      · exact absurd hqc hp
      · simp only [List.map_cons, if_neg hp]
        rw [List.find?_cons_of_neg _ (by simpa using hp)]
        exact ih ⟨q, hq', hqc⟩

theorem getCli_setCli (s : Sys) (c : Nat) (cl x : Client) (hg : getCli s c = some cl) :
    getCli (setCli s c x) c = some x := by
  unfold getCli at hg ⊢
  unfold setCli
  simp only
  rcases hf : s.clis.find? (fun p => p.1 = c) with _ | pr
  · rw [hf] at hg
    simp at hg
  · have hmem := List.mem_of_find?_eq_some hf
    have hpc := List.find?_some hf
    simp only [decide_eq_true_eq] at hpc
    rw [find_map_set s.clis c x ⟨pr, hmem, hpc⟩]
    rfl

theorem validate_args_result (cl : Client) (h : (validate_args cl).1 = 0) :
    (validate_args cl).2.1.result = 0 := by
  unfold validate_args at h ⊢
  dsimp only at h ⊢
  split_ifs at h ⊢ <;>
    first
      | rfl
      | (exact absurd (rfl : (0 : Int) = 0) (by assumption))
      | (norm_num [EINVAL] at h)

-- The service-side state left by each operation when it returns a negative
-- value for a validated client: the only change is the cleared result.
theorem request_neg_state (isr : Bool) (s : Sys) (c : Nat) (cl cl1 : Client) (nw : Bool)
    (hg : getCli s c = some cl) (hvE : validate_args cl = (0, cl1, nw)) :
    (z_impl_onoff_request isr s c).1 < 0 →
    (z_impl_onoff_request isr s c).2.1 = setCli s c cl1 := by
  simp only [z_impl_onoff_request, hg, hvE]
  norm_num
  simp only [setCli_srv]
  by_cases he : s.srv.flags.has_error = true
  · simp [he]
  · rw [if_neg he]
    by_cases h65 : s.srv.refs = UINT16_MAX
    · simp [h65]
    · rw [if_neg h65]
      rcases hst : serviceState s.srv.flags <;> simp only [hst]
      · split
        · intro _
          rfl
        · intro h
          norm_num at h
      · intro h
        norm_num at h
      · split
        · intro _
          rfl
        · intro h
          norm_num at h
      · split
        · intro _
          rfl
        · intro h
          norm_num at h

theorem release_neg_state (isr : Bool) (s : Sys) (c : Nat) (cl cl1 : Client) (nw : Bool)
    (hg : getCli s c = some cl) (hvE : validate_args cl = (0, cl1, nw)) :
    (z_impl_onoff_release isr s c).1 < 0 →
    (z_impl_onoff_release isr s c).2.1 = setCli s c cl1 := by
  simp only [z_impl_onoff_release, hg, hvE]
  norm_num
  simp only [setCli_srv]
  by_cases he : s.srv.flags.has_error = true
  · simp [he]
  · rw [if_neg he]
    rcases hst : serviceState s.srv.flags <;> simp only [hst]
    · intro _
      trivial
    · split
      · intro h
        norm_num at h
      · split
        · intro _
          rfl
        · intro h
          norm_num at h
    · intro _
      trivial
    · intro _
      trivial

theorem reset_neg_state (isr : Bool) (s : Sys) (c : Nat) (cl cl1 : Client) (nw : Bool)
    (hR : s.srv.hasReset = true)
    (hg : getCli s c = some cl) (hvE : validate_args cl = (0, cl1, nw)) :
    (z_impl_onoff_service_reset isr s c).1 < 0 →
    (z_impl_onoff_service_reset isr s c).2.1 = setCli s c cl1 := by
  simp only [z_impl_onoff_service_reset, hR, hg, hvE]
  norm_num
  simp only [setCli_srv]
  split
  · intro _
    rfl
  · by_cases he : s.srv.flags.has_error = true
    · rw [if_neg (by simp [he])]
      split
      · intro h
        norm_num at h
      · intro h
        norm_num at h
    · rw [if_pos (by simp [he])]
      intro _
      rfl

theorem cancel_neg_state (s : Sys) (c : Nat) (cl cl1 : Client) (nw : Bool)
    (hg : getCli s c = some cl) (hvE : validate_args cl = (0, cl1, nw)) :
    (z_impl_onoff_cancel s c).1 < 0 →
    (z_impl_onoff_cancel s c).2 = setCli s c cl1 := by
  simp only [z_impl_onoff_cancel, hg, hvE]
  norm_num
  split
  · intro h
    norm_num at h
  · split
    · intro h
      norm_num at h
    · intro _
      rfl

/-- C10: for every public operation, a client argument that passes
validation has its result field set to 0 before the outcome is decided, so
even a rejected call (negative return) leaves the stored client with
result = 0. -/
theorem C10_result_cleared (isr : Bool) (s : Sys) (c : Nat) (cl : Client)
    (hg : getCli s c = some cl) (hv : (validate_args cl).1 = 0) :
    (validate_args cl).2.1.result = 0 ∧
    ((z_impl_onoff_request isr s c).1 < 0 →
      getCli (z_impl_onoff_request isr s c).2.1 c = some (validate_args cl).2.1) ∧
    ((z_impl_onoff_release isr s c).1 < 0 →
      getCli (z_impl_onoff_release isr s c).2.1 c = some (validate_args cl).2.1) ∧
    (s.srv.hasReset = true →
      (z_impl_onoff_service_reset isr s c).1 < 0 →
      getCli (z_impl_onoff_service_reset isr s c).2.1 c = some (validate_args cl).2.1) ∧
    ((z_impl_onoff_cancel s c).1 < 0 →
      getCli (z_impl_onoff_cancel s c).2 c = some (validate_args cl).2.1) := by
  have hres := validate_args_result cl hv
  rcases hvE : validate_args cl with ⟨rv0, cl1, nw⟩
  rw [hvE] at hv hres
  simp only at hv hres
  subst hv
  refine ⟨hres, ?_, ?_, ?_, ?_⟩
  · intro h
    rw [request_neg_state isr s c cl cl1 nw hg hvE h]
    exact getCli_setCli s c cl cl1 hg
  · intro h
    rw [release_neg_state isr s c cl cl1 nw hg hvE h]
    exact getCli_setCli s c cl cl1 hg
  · intro hR h
    rw [reset_neg_state isr s c cl cl1 nw hR hg hvE h]
    exact getCli_setCli s c cl cl1 hg
  · intro h
    rw [cancel_neg_state s c cl cl1 nw hg hvE h]
    exact getCli_setCli s c cl cl1 hg

theorem C10_result_cleared_witness :
    getCli (z_impl_onoff_request false
      ⟨⟨[], false, none, ⟨false, false, false, true, false, false⟩, 0⟩,
       [(1, ⟨2, false, false, 9⟩)], []⟩ 1).2.1 1 =
      some ⟨2, false, false, 0⟩ := by
  obtain ⟨-, h2, -, -, -⟩ := C10_result_cleared false
    ⟨⟨[], false, none, ⟨false, false, false, true, false, false⟩, 0⟩,
     [(1, ⟨2, false, false, 9⟩)], []⟩ 1 ⟨2, false, false, 9⟩ (by decide) (by decide)
  have h := h2 (by decide)
  rw [h]
  decide

end Onoff
